import Mathlib

/-!
# wshub: connection registry, broadcast fan-out and channel credentials

A shallow embedding of `internal/handlers/handlers.go`, `internal/middleware/middleware.go`
and `internal/config/config.go`.

* A `*websocket.Conn` is a pointer; only its identity matters, so it is a `Nat`.
* `h.cons : map[string][]*websocket.Conn` is a partial function from channel names to lists;
  reading a missing key gives the nil slice, which has length 0.
* The critical sections guarded by `h.m` are atomic steps.
* A Go panic is the `Except.error` result.
* The clock is an integer number of nanoseconds since the Unix epoch; `int64` products wrap.
* The packages `golang-jwt/jwt/v5`, `gorilla/websocket` and `viper` are outside the
  repository: what the code calls of them is a parameter (`JwtLib`, `Transport`, the
  arguments of `LoadConfig`).
-/

namespace WsHub

/-! ## The registry `Handler.cons` -/

/-- Identity of a `*websocket.Conn`. -/
abbrev Conn := Nat

/-- The map `cons map[string][]*websocket.Conn` of `Handler`; `none` is a missing key. -/
abbrev Registry := String → Option (List Conn)

/-- The map made by `NewHandler`: `make(map[string][]*websocket.Conn)`. -/
def emptyRegistry : Registry := fun _ => none

/-- The read `h.cons[channel]`: a missing key reads as the nil slice. -/
def Registry.get (cons : Registry) (channel : String) : List Conn :=
  (cons channel).getD []

/-- The write `h.cons[channel] = v`. -/
def Registry.set (cons : Registry) (channel : String) (v : List Conn) : Registry :=
  fun k => if k = channel then some v else cons k

/-- What can go wrong at run time in the modelled code. -/
inductive Panic where
  | makesliceCapOutOfRange
  deriving DecidableEq, Repr

/-- The join of `Handler.WS` (handlers.go:59-61):
`h.cons[channel] = append(h.cons[channel], con)`. -/
def Join (cons : Registry) (channel : String) (con : Conn) : Registry :=
  cons.set channel (cons.get channel ++ [con])

/-- The capacity asked of `make` at handlers.go:66, `len(h.cons[channel])-1`, as a Go `int`. -/
def leaveCap (cons : Registry) (channel : String) : Int :=
  ((cons.get channel).length : Int) - 1

/-- The deferred removal of `Handler.WS` (handlers.go:63-72).
`make([]*websocket.Conn, 0, n)` panics when `n < 0`; otherwise every element of
`h.cons[channel]` other than `con` is appended to the new slice, in order, and the
new slice is stored back. -/
def Leave (cons : Registry) (channel : String) (con : Conn) : Except Panic Registry :=
  if leaveCap cons channel < 0 then
    .error .makesliceCapOutOfRange
  else
    .ok (cons.set channel ((cons.get channel).filter (fun c => c != con)))

/-- The list the fan-out of `Handler.Broadcast` ranges over (handlers.go:96). -/
def Snapshot (cons : Registry) (channel : String) : List Conn :=
  cons.get channel

/-! ## The connection goroutines of `Handler.WS` -/

/-- The registry together with the goroutines started at handlers.go:57.
`live` lists the goroutines that have done their append and not yet their deferred
removal, each with the connection it owns and the channel it captured; `seen` lists
every connection that `upgrader.Upgrade` has ever handed to a goroutine. -/
structure Hub where
  cons : Registry
  live : List (Conn × String)
  seen : List Conn

/-- The state after `NewHandler`: empty map, no goroutine. -/
def Hub.init : Hub := ⟨emptyRegistry, [], []⟩

/-- One critical section of one connection goroutine.
`join`: a goroutine started for a newly upgraded connection appends it (handlers.go:59-61).
`teardown`: a goroutine that is parked on `<-ctx.Done()` runs its deferred function
(handlers.go:62-75) and that function returns; when `make` panics there instead, the
process dies and there is no next state. -/
inductive Step : Hub → Hub → Prop where
  | join (h : Hub) (channel : String) (con : Conn) (fresh : con ∉ h.seen) :
      Step h ⟨Join h.cons channel con, (con, channel) :: h.live, con :: h.seen⟩
  | teardown (h : Hub) (channel : String) (con : Conn) (cons' : Registry)
      (own : (con, channel) ∈ h.live) (ran : Leave h.cons channel con = .ok cons') :
      Step h ⟨cons', h.live.filter (fun p => p != (con, channel)), h.seen⟩

/-- The states the server can be in. -/
inductive Reachable : Hub → Prop where
  | init : Reachable Hub.init
  | step {h h' : Hub} (hr : Reachable h) (hs : Step h h') : Reachable h'

/-- What every reachable state satisfies: the registry holds exactly the connections of
the live goroutines, each in the channel its goroutine captured and once; a live
connection has been seen; a connection has one goroutine. -/
structure Hub.Inv (h : Hub) : Prop where
  live_mem : ∀ con ch, (con, ch) ∈ h.live → con ∈ h.cons.get ch
  mem_live : ∀ con ch, con ∈ h.cons.get ch → (con, ch) ∈ h.live
  live_seen : ∀ con ch, (con, ch) ∈ h.live → con ∈ h.seen
  live_chan : ∀ con ch₁ ch₂, (con, ch₁) ∈ h.live → (con, ch₂) ∈ h.live → ch₁ = ch₂
  count_le : ∀ con ch, (h.cons.get ch).count con ≤ 1

/-! ## `Handler.Broadcast` -/

/-- The body of a broadcast request after `json.NewDecoder(r.Body).Decode(req)`;
a field missing from the JSON is the empty string. -/
structure BroadcastReq where
  Channel : String
  Message : String
  deriving DecidableEq, Repr

/-- The constant `websocket.TextMessage`. -/
def TextMessage : Nat := 1

/-- How a call of `conn.WriteMessage` ends: it returns nil, it returns an error, or it
panics (gorilla/websocket panics with "concurrent write to websocket connection" when
another goroutine is writing the same connection). -/
inductive WriteResult where
  | ok
  | error (err : String)
  | panic (msg : String)
  deriving DecidableEq, Repr

/-- Whether the call panicked. -/
def WriteResult.isPanic : WriteResult → Bool
  | .panic _ => true
  | _ => false

/-- The peer side of the connections: `conn.WriteMessage(messageType, data)` run in
world `w` gives the next world and the way the call ended.  Nothing is assumed of it;
what other goroutines do to the connections in the meantime is part of the world. -/
structure Transport (σ : Type) where
  WriteMessage : σ → Conn → Nat → String → σ × WriteResult

/-- The state of the fan-out goroutine: the world of the peers, the lines it has logged,
whether a panic has ended it (an unrecovered panic in a goroutine ends the process),
and the registry it holds the read lock of. -/
structure FanOut (σ : Type) where
  world : σ
  logs : List String
  died : Bool
  cons : Registry

/-- The loop `for _, conn := range h.cons[channel]` of handlers.go:96-100: write, and
log when the write returned an error; only a panic inside `WriteMessage` leaves the
loop before the last element. -/
def fanOutLoop {σ : Type} (T : Transport σ) (message : String) :
    List Conn → FanOut σ → FanOut σ
  | [], s => s
  | conn :: rest, s =>
    match T.WriteMessage s.world conn TextMessage message with
    | (w, .ok) => fanOutLoop T message rest { s with world := w }
    | (w, .error err) =>
      fanOutLoop T message rest
        { s with world := w, logs := s.logs ++ ["Error broadcasting message: " ++ err] }
    | (w, .panic _) => { s with world := w, died := true }

/-- The goroutine of handlers.go:93-101, run on the registry it finds. -/
def fanOut {σ : Type} (T : Transport σ) (cons : Registry) (channel message : String)
    (w : σ) : FanOut σ :=
  fanOutLoop T message (cons.get channel) ⟨w, [], false, cons⟩

/-- The world after one call `conn.WriteMessage(websocket.TextMessage, message)`. -/
def writeStep {σ : Type} (T : Transport σ) (message : String) (w : σ) (conn : Conn) : σ :=
  (T.WriteMessage w conn TextMessage message).1

/-- What `Handler.Broadcast` itself does before it returns: the status it writes and
the arguments of the goroutine it starts, if it starts one. -/
structure BroadcastReply where
  status : Nat
  body : String
  spawn : Option (String × String)
  deriving DecidableEq, Repr

/-- The handler `Handler.Broadcast` (handlers.go:80-102) up to the `go` statement. -/
def Broadcast (decoded : Except String BroadcastReq) : BroadcastReply :=
  match decoded with
  | .error _ => ⟨400, "Invalid body", none⟩
  | .ok req =>
    if req.Channel = "" ∨ req.Message = "" then ⟨400, "Invalid body", none⟩
    else ⟨200, "", some (req.Channel, req.Message)⟩

/-- The handler followed by the goroutine it started. -/
def serveBroadcast {σ : Type} (T : Transport σ) (cons : Registry)
    (decoded : Except String BroadcastReq) (w : σ) : BroadcastReply × Option (FanOut σ) :=
  let reply := Broadcast decoded
  match reply.spawn with
  | some (channel, message) => (reply, some (fanOut T cons channel message w))
  | none => (reply, none)

/-- A concrete world of peers: every call of `WriteMessage` made so far, in order, as
(connection, message type, payload); the connections whose transport is closed; and
the connections another goroutine is inside `WriteMessage` of at this moment (a second
fan-out, which the shared `RLock` of handlers.go:94 lets run at the same time). -/
structure Peers where
  calls : List (Conn × Nat × String)
  closed : List Conn
  writing : List Conn
  deriving DecidableEq, Repr

/-- The error a closed transport gives. -/
def closedErr : String := "use of closed network connection"

/-- The transport over `Peers`: a call is recorded; it panics on a connection that is
being written, returns an error on a closed one, and returns nil otherwise. -/
def wire : Transport Peers where
  WriteMessage q conn ty data :=
    ({ q with calls := q.calls ++ [(conn, ty, data)] },
      if conn ∈ q.writing then .panic "concurrent write to websocket connection"
      else if conn ∈ q.closed then .error closedErr
      else .ok)

/-! ## Configuration (`internal/config/config.go`) -/

/-- The type `config.JWTConfig`; `TTL` is an `int64`. -/
structure JWTConfig where
  TTL : Int
  Secret : String
  deriving DecidableEq, Repr

/-- The type `config.HTTPConfig`. -/
structure HTTPConfig where
  Port : String
  deriving DecidableEq, Repr

/-- The type `config.Config`. -/
structure Config where
  HTTP : HTTPConfig
  JWT : JWTConfig
  deriving DecidableEq, Repr

/-- The function `LoadConfig` (config.go:23-56) as a function of the three values it reads:
`viper.GetString("HTTP_PORT")`, `viper.GetString("JWT_SECRET")`, `viper.GetInt64("JWT_TTL")`.
A value that is unset reads as `""` or `0`. -/
def LoadConfig (httpPort jwtSecret : String) (jwtTTL : Int) : Config :=
  { HTTP := ⟨if httpPort = "" then "8080" else httpPort⟩,
    JWT := { Secret := if jwtSecret = "" then "secret" else jwtSecret,
             TTL := if jwtTTL = 0 then 600 else jwtTTL } }

/-- The values of an `int64`. -/
def isInt64 (x : Int) : Prop := -9223372036854775808 ≤ x ∧ x ≤ 9223372036854775807

instance (x : Int) : Decidable (isInt64 x) := by unfold isInt64; infer_instance

/-- Two's-complement wrap-around of `int64` arithmetic. -/
def wrapInt64 (x : Int) : Int :=
  (x + 9223372036854775808) % 18446744073709551616 - 9223372036854775808

/-! ## Credentials (`generateConnectionToken`, `JWTMiddleware`) -/

/-- A value in a claims map, as far as the code looks at it. -/
inductive JVal where
  | str (s : String)
  | num (n : Int)
  | other
  deriving DecidableEq, Repr

/-- The type `jwt.MapClaims`. -/
abbrev MapClaims := String → Option JVal

/-- The constant `middleware.ChannelKey`. -/
def ChannelKey : String := "channel"

/-- What the code reads of a `*jwt.Token`. -/
structure Token where
  Claims : MapClaims
  Valid : Bool

/-- The two entry points of `github.com/golang-jwt/jwt/v5` that the code calls; the
package is not part of this repository and is a parameter of the model.
`SignedString claims key` is
`jwt.NewWithClaims(jwt.SigningMethodHS256, claims).SignedString([]byte(key))`.
`Parse tokenStr key now` is `jwt.Parse(tokenStr, keyfunc)` with a keyfunc that returns
`[]byte(key)`, called when the clock reads `now` nanoseconds since the Unix epoch; the
error result stands for `err != nil`. -/
structure JwtLib where
  SignedString : MapClaims → String → Except String String
  Parse : String → String → Int → Except String Token

/-- The constant `time.Second`, in nanoseconds. -/
def Second : Int := 1000000000

/-- The claims literal of handlers.go:135-138. -/
def connectionClaims (channel : String) (exp : Int) : MapClaims :=
  fun k => if k = ChannelKey then some (.str channel)
           else if k = "exp" then some (.num exp) else none

/-- The value `time.Now().Add(time.Duration(ttl) * time.Second).Unix()` of handlers.go:137
when the clock reads `now` nanoseconds since the epoch: the product is an `int64`
product and wraps; `Unix` rounds down to whole seconds. -/
def expiryUnix (now ttl : Int) : Int :=
  (now + wrapInt64 (ttl * Second)) / Second

/-- The function `generateConnectionToken` (handlers.go:133-141), run when the clock
reads `now`. -/
def generateConnectionToken (L : JwtLib) (now : Int) (channel : String) (ttl : Int)
    (config : JWTConfig) : Except String String :=
  L.SignedString (connectionClaims channel (expiryUnix now ttl)) config.Secret

/-- A value stored in a request context. -/
inductive CtxVal where
  | str (s : String)
  | other
  deriving DecidableEq, Repr

/-- A `context.Context` as the chain of its `WithValue` layers, the newest first. -/
abbrev Context := List (String × CtxVal)

/-- The call `context.WithValue(ctx, key, val)`. -/
def Context.WithValue (ctx : Context) (key : String) (val : CtxVal) : Context :=
  (key, val) :: ctx

/-- The call `ctx.Value(key)`. -/
def Context.Value (ctx : Context) (key : String) : Option CtxVal :=
  List.lookup key ctx

/-- What the middleware reads of the request: `r.URL.Query().Get("token")`, which is `""`
when the parameter is missing, and `r.Context()`. -/
structure Request where
  token : String
  ctx : Context
  deriving DecidableEq, Repr

/-- What the middleware did: the status and body it wrote itself with `http.Error`, if
any, and the contexts of the requests it passed to `next.ServeHTTP`, in order. -/
structure MwOutcome where
  reply : Option (Nat × String)
  nextCalls : List Context
  deriving DecidableEq, Repr

/-- The handler built by `JWTMiddleware(cfg)(next)` (middleware.go:20-47), run when the
clock reads `now`. -/
def JWTMiddleware (L : JwtLib) (cfg : JWTConfig) (now : Int) (r : Request) : MwOutcome :=
  if r.token = "" then
    ⟨some (401, "Missing token"), []⟩
  else
    match L.Parse r.token cfg.Secret now with
    | .error _ => ⟨some (401, "Invalid token"), []⟩
    | .ok token =>
      if !token.Valid then ⟨some (401, "Invalid token"), []⟩
      else
        match token.Claims "channel" with
        | some (.str channel) => ⟨none, [r.ctx.WithValue ChannelKey (.str channel)]⟩
        | _ => ⟨some (401, "Invalid token claims"), []⟩

/-- The function `getChannel` (handlers.go:32-35):
`r.Context().Value(middleware.ChannelKey).(string)`. -/
def getChannel (ctx : Context) : String × Bool :=
  match ctx.Value ChannelKey with
  | some (.str channel) => (channel, true)
  | _ => ("", false)

/-- What `Handler.WS` did with a request. -/
inductive WSOutcome where
  | badRequest
  | upgradeFailed
  | spawned (channel : String) (con : Conn)
  deriving DecidableEq, Repr

/-- The handler `Handler.WS` (handlers.go:37-57) up to the `go` statement; `upgrade` is
the result of `upgrader.Upgrade`, `none` for an error. -/
def WS (ctx : Context) (upgrade : Option Conn) : WSOutcome :=
  match getChannel ctx with
  | (_, false) => .badRequest
  | (channel, true) =>
    match upgrade with
    | none => .upgradeFailed
    | some con => .spawned channel con

/-- The route `/ws` of main.go:34, `JWTMiddleware(cfg.JWT)(http.HandlerFunc(h.WS))`,
followed by the append of the goroutine it started: the registry afterwards.  (The CORS
layer passes every request that is not `OPTIONS` through unchanged.) -/
def wsRoute (L : JwtLib) (cfg : JWTConfig) (now : Int) (r : Request)
    (upgrade : Option Conn) (cons : Registry) : Registry :=
  (JWTMiddleware L cfg now r).nextCalls.foldl
    (fun acc ctx =>
      match WS ctx upgrade with
      | .spawned channel con => Join acc channel con
      | _ => acc)
    cons

/-- The token has expired, as golang-jwt reads it: the `exp` claim is a whole number of
seconds other than 0 (below `2^53` in absolute value, so that a JSON number carries it
exactly) and that second is not after `now`. -/
def expPassed (claims : MapClaims) (now : Int) : Prop :=
  ∃ e, claims "exp" = some (.num e) ∧ e ≠ 0 ∧ -9007199254740992 < e ∧
    e < 9007199254740992 ∧ e * Second ≤ now

/-- The token is not expired: there is no `exp` claim, or it is 0 (golang-jwt reads
`exp = 0` as no expiry), or it is a second after `now`. -/
def expLive (claims : MapClaims) (now : Int) : Prop :=
  claims "exp" = none ∨ claims "exp" = some (.num 0) ∨
  ∃ e, claims "exp" = some (.num e) ∧ -9007199254740992 < e ∧ e < 9007199254740992 ∧
    now < e * Second

/-- The token is not valid yet: the `nbf` claim is a second other than 0 and after
`now`. -/
def nbfAhead (claims : MapClaims) (now : Int) : Prop :=
  ∃ n, claims "nbf" = some (.num n) ∧ n ≠ 0 ∧ -9007199254740992 < n ∧
    n < 9007199254740992 ∧ now < n * Second

/-- The token is valid already: there is no `nbf` claim, or it is 0, or it is a second
not after `now`. -/
def nbfReached (claims : MapClaims) (now : Int) : Prop :=
  claims "nbf" = none ∨ claims "nbf" = some (.num 0) ∨
  ∃ n, claims "nbf" = some (.num n) ∧ -9007199254740992 < n ∧ n < 9007199254740992 ∧
    n * Second ≤ now

/-- What `jwt.Parse` of golang-jwt checks, with its default options and a `[]byte` key.
`decode tok` is the claims map of the token string, `none` when the string is
malformed (not three base64url segments of JSON); `signedBy tok key` says that the
signature segment verifies under `key` with the method the header names.
A malformed token, a signature that does not verify, an expired token and a token that
is not valid yet give an error; a token that is returned without error is valid and
carries the decoded claims; a well-formed, verified token that is neither expired nor
not valid yet is returned without error. -/
structure JwtLib.Checks (L : JwtLib) (decode : String → Option MapClaims)
    (signedBy : String → String → Bool) : Prop where
  malformed : ∀ tok key now, decode tok = none → ∃ err, L.Parse tok key now = .error err
  signature : ∀ tok key now, signedBy tok key = false →
    ∃ err, L.Parse tok key now = .error err
  expired : ∀ tok key now claims, decode tok = some claims → expPassed claims now →
    ∃ err, L.Parse tok key now = .error err
  notYet : ∀ tok key now claims, decode tok = some claims → nbfAhead claims now →
    ∃ err, L.Parse tok key now = .error err
  claims : ∀ tok key now t, L.Parse tok key now = .ok t →
    t.Valid = true ∧ decode tok = some t.Claims
  accept : ∀ tok key now claims, decode tok = some claims → signedBy tok key = true →
    expLive claims now → nbfReached claims now → L.Parse tok key now = .ok ⟨claims, true⟩

/-- The credential is bad, in the words of the claim: the token is missing, malformed,
has an invalid signature, has expired, is not valid yet, or has a `channel` claim that
is missing or not a string. -/
def BadToken (decode : String → Option MapClaims) (signedBy : String → String → Bool)
    (cfg : JWTConfig) (now : Int) (tok : String) : Prop :=
  tok = "" ∨ decode tok = none ∨ signedBy tok cfg.Secret = false ∨
  ∃ claims, decode tok = some claims ∧
    (expPassed claims now ∨ nbfAhead claims now ∨ ∀ s, claims "channel" ≠ some (.str s))

/-- What the code relies on from the JWT package, for the tokens it issues (claims
`channel` and `exp`, signed and parsed with the same non-empty key), when `exp` is not 0
and is a whole number of seconds that a JSON number carries exactly (below `2^53` in
absolute value): signing succeeds and gives a non-empty string; parsing it before the
expiry second gives a valid token with the same claims; parsing it at or after the
expiry second gives an error. -/
def JwtLib.Lawful (L : JwtLib) : Prop :=
  ∀ (channel key : String) (exp now : Int), key ≠ "" → exp ≠ 0 →
    -9007199254740992 < exp → exp < 9007199254740992 →
    ∃ tok, L.SignedString (connectionClaims channel exp) key = .ok tok ∧ tok ≠ "" ∧
      (now < exp * Second →
        L.Parse tok key now = .ok ⟨connectionClaims channel exp, true⟩) ∧
      (exp * Second ≤ now → ∃ err, L.Parse tok key now = .error err)

/-! ### A small instance of the JWT package

Tokens are `±aaa…a.channel` with the expiry second in unary; there is no signature.
It serves to show that `JwtLib.Lawful` can be met and to run the code on concrete
inputs. -/

/-- Serialise a channel and an expiry second. -/
def unaryEncode (channel : String) (exp : Int) : String :=
  String.mk ((if exp < 0 then '-' else '+') ::
    (List.replicate exp.natAbs 'a' ++ '.' :: channel.data))

/-- Read back a channel and an expiry second. -/
def unaryDecode (tok : String) : Option (String × Int) :=
  match tok.data with
  | [] => none
  | s :: rest =>
    match rest.dropWhile (fun c => c == 'a') with
    | '.' :: c =>
      let n : Int := ((rest.takeWhile (fun c => c == 'a')).length : Nat)
      some (String.mk c, if s = '-' then -n else n)
    | _ => none

/-- The instance. -/
def unaryJwt : JwtLib where
  SignedString claims _ :=
    match claims ChannelKey, claims "exp" with
    | some (.str channel), some (.num exp) => .ok (unaryEncode channel exp)
    | _, _ => .error "unsupported claims"
  Parse tok _ now :=
    match unaryDecode tok with
    | none => .error "token is malformed"
    | some (channel, exp) =>
      if now < exp * Second then .ok ⟨connectionClaims channel exp, true⟩
      else .error "token is expired"

/-- The claims of a token of the unary format. -/
def plainDecode (tok : String) : Option MapClaims :=
  (unaryDecode tok).map (fun ce => connectionClaims ce.1 ce.2)

/-- The unary format has no signature segment: every token verifies. -/
def plainSigned (_tok _key : String) : Bool := true

/-- The unary instance with `exp = 0` read as no expiry, as golang-jwt reads it. -/
def plainJwt : JwtLib where
  SignedString claims _ :=
    match claims ChannelKey, claims "exp" with
    | some (.str channel), some (.num exp) => .ok (unaryEncode channel exp)
    | _, _ => .error "unsupported claims"
  Parse tok _ now :=
    match unaryDecode tok with
    | none => .error "token is malformed"
    | some (channel, exp) =>
      if exp = 0 ∨ now < exp * Second then .ok ⟨connectionClaims channel exp, true⟩
      else .error "token is expired"

/-! ### Basic facts about the map -/

theorem get_set_same (cons : Registry) (ch : String) (v : List Conn) :
    (cons.set ch v).get ch = v := by
  simp [Registry.get, Registry.set]

theorem get_set_other (cons : Registry) (ch k : String) (v : List Conn) (h : k ≠ ch) :
    (cons.set ch v).get k = cons.get k := by
  simp [Registry.get, Registry.set, h]

theorem get_Join_same (cons : Registry) (ch : String) (con : Conn) :
    (Join cons ch con).get ch = cons.get ch ++ [con] := by
  simp [Join, get_set_same]

theorem get_Join_other (cons : Registry) (ch k : String) (con : Conn) (h : k ≠ ch) :
    (Join cons ch con).get k = cons.get k := by
  simp [Join, get_set_other _ _ _ _ h]

theorem leaveCap_neg_iff (cons : Registry) (ch : String) :
    leaveCap cons ch < 0 ↔ cons.get ch = [] := by
  unfold leaveCap
  constructor
  · intro h
    have : (cons.get ch).length = 0 := by omega
    exact List.length_eq_zero.mp this
  · intro h
    simp [h]

theorem Leave_of_ne_nil (cons : Registry) (ch : String) (con : Conn)
    (h : cons.get ch ≠ []) :
    Leave cons ch con =
      .ok (cons.set ch ((cons.get ch).filter (fun c => c != con))) := by
  have hc : ¬ leaveCap cons ch < 0 := by
    rw [leaveCap_neg_iff]; exact h
  simp [Leave, hc]

theorem Leave_of_nil (cons : Registry) (ch : String) (con : Conn)
    (h : cons.get ch = []) :
    Leave cons ch con = .error .makesliceCapOutOfRange := by
  have hc : leaveCap cons ch < 0 := (leaveCap_neg_iff cons ch).mpr h
  simp [Leave, hc]

theorem Leave_ok_iff (cons : Registry) (ch : String) (con : Conn) :
    (∃ r, Leave cons ch con = .ok r) ↔ cons.get ch ≠ [] := by
  constructor
  · rintro ⟨r, hr⟩ hnil
    rw [Leave_of_nil cons ch con hnil] at hr
    cases hr
  · intro h
    exact ⟨_, Leave_of_ne_nil cons ch con h⟩

theorem filter_ne_of_not_mem (l : List Conn) (con : Conn) (h : con ∉ l) :
    l.filter (fun c => c != con) = l := by
  rw [List.filter_eq_self]
  intro a ha
  have : a ≠ con := fun e => h (e ▸ ha)
  simpa using this

theorem Leave_get_same (cons r : Registry) (ch : String) (con : Conn)
    (h : Leave cons ch con = .ok r) :
    r.get ch = (cons.get ch).filter (fun c => c != con) := by
  have hne : cons.get ch ≠ [] := (Leave_ok_iff cons ch con).mp ⟨r, h⟩
  rw [Leave_of_ne_nil cons ch con hne] at h
  injection h with h
  rw [← h, get_set_same]

theorem Leave_get_other (cons r : Registry) (ch k : String) (con : Conn)
    (h : Leave cons ch con = .ok r) (hk : k ≠ ch) :
    r.get k = cons.get k := by
  have hne : cons.get ch ≠ [] := (Leave_ok_iff cons ch con).mp ⟨r, h⟩
  rw [Leave_of_ne_nil cons ch con hne] at h
  injection h with h
  rw [← h, get_set_other _ _ _ _ hk]

theorem count_filter_ne (l : List Conn) (con y : Conn) (h : y ≠ con) :
    ((l.filter (fun c => c != con)).count y) = l.count y := by
  induction l with
  | nil => rfl
  | cons a t ih =>
    by_cases ha : a = con
    · subst ha
      have hay : ¬ a = y := fun e => h e.symm
      simp [List.filter_cons, List.count_cons, hay, ih]
    · simp [List.filter_cons, List.count_cons, ha, ih]

theorem not_mem_filter_ne (l : List Conn) (con : Conn) :
    con ∉ l.filter (fun c => c != con) := by
  simp [List.mem_filter]

/-! ## Join, Leave and Snapshot -/

/-- C1: from a registry in which channel `C` has no members, and for two connections
`X` and `Y` (two connections are two pointers, `X ≠ Y`: `Handler.WS` appends only the
connection `Upgrade` has just returned), after `Join(C,X)` and `Join(C,Y)` the snapshot
of `C` is `[X, Y]`, so it contains both and has no duplicates; the following
`Leave(C,X)` returns, and the snapshot of `C` is then `[Y]`. -/
theorem join_join_leave_snapshot (cons : Registry) (C : String) (X Y : Conn)
    (hempty : Snapshot cons C = []) (hXY : X ≠ Y) :
    Snapshot (Join (Join cons C X) C Y) C = [X, Y] ∧
    X ∈ Snapshot (Join (Join cons C X) C Y) C ∧
    Y ∈ Snapshot (Join (Join cons C X) C Y) C ∧
    (Snapshot (Join (Join cons C X) C Y) C).Nodup ∧
    ∃ after, Leave (Join (Join cons C X) C Y) C X = .ok after ∧ Snapshot after C = [Y] := by
  have hs : (Join (Join cons C X) C Y).get C = [X, Y] := by
    have h0 : cons.get C = [] := hempty
    rw [get_Join_same, get_Join_same, h0]
    rfl
  have hne : (Join (Join cons C X) C Y).get C ≠ [] := by
    rw [hs]; exact List.cons_ne_nil _ _
  refine ⟨hs, ?_, ?_, ?_, ?_⟩
  · show X ∈ (Join (Join cons C X) C Y).get C
    rw [hs]; simp
  · show Y ∈ (Join (Join cons C X) C Y).get C
    rw [hs]; simp
  · show ((Join (Join cons C X) C Y).get C).Nodup
    rw [hs]; simp [hXY]
  · refine ⟨_, Leave_of_ne_nil _ C X hne, ?_⟩
    show (Registry.set _ C _).get C = [Y]
    rw [get_set_same, hs]
    have hYX : Y ≠ X := fun e => hXY e.symm
    simp [List.filter_cons, hYX]

/-- Witness of `join_join_leave_snapshot`: channel `"room1"`, connections 1 and 2, from
the empty map. -/
theorem join_join_leave_snapshot_witness :
    Snapshot (Join (Join emptyRegistry "room1" 1) "room1" 2) "room1" = [1, 2] ∧
    (1 : Conn) ∈ Snapshot (Join (Join emptyRegistry "room1" 1) "room1" 2) "room1" ∧
    (2 : Conn) ∈ Snapshot (Join (Join emptyRegistry "room1" 1) "room1" 2) "room1" ∧
    (Snapshot (Join (Join emptyRegistry "room1" 1) "room1" 2) "room1").Nodup ∧
    ∃ after, Leave (Join (Join emptyRegistry "room1" 1) "room1" 2) "room1" 1 = .ok after ∧
      Snapshot after "room1" = [2] :=
  join_join_leave_snapshot emptyRegistry "room1" 1 2 rfl (by decide)

/-- C2, as amended: when channel `C` has at least one member and `X` is not one of them,
`Leave(C,X)` returns (no panic) and the snapshot of every channel is what it was. -/
theorem leave_non_member_noop (cons : Registry) (C : String) (X : Conn)
    (hne : Snapshot cons C ≠ []) (hX : X ∉ Snapshot cons C) :
    ∃ after, Leave cons C X = .ok after ∧ ∀ D, Snapshot after D = Snapshot cons D := by
  refine ⟨_, Leave_of_ne_nil cons C X hne, ?_⟩
  intro D
  show (Registry.set _ C _).get D = cons.get D
  by_cases hD : D = C
  · subst hD
    rw [get_set_same]
    exact filter_ne_of_not_mem _ _ hX
  · exact get_set_other _ _ _ _ hD

/-- Witness of `leave_non_member_noop`: `"room1"` holds connection 1 and connection 2
leaves. -/
theorem leave_non_member_noop_witness :
    ∃ after, Leave (Join emptyRegistry "room1" 1) "room1" 2 = .ok after ∧
      ∀ D, Snapshot after D = Snapshot (Join emptyRegistry "room1" 1) D :=
  leave_non_member_noop (Join emptyRegistry "room1" 1) "room1" 2
    (by show (Join emptyRegistry "room1" 1).get "room1" ≠ []
        rw [get_Join_same]; simp)
    (by show (2 : Conn) ∉ (Join emptyRegistry "room1" 1).get "room1"
        rw [get_Join_same]; simp [emptyRegistry, Registry.get])

/-- C2 as stated fails when `C` has no members: with no entry for `"room1"`, and with
an entry that holds the empty slice, `Leave("room1", 7)` asks `make` for capacity `-1`
and panics, although 7 is not a member. -/
theorem leave_empty_channel_panics :
    (7 : Conn) ∉ Snapshot emptyRegistry "room1" ∧
    leaveCap emptyRegistry "room1" = -1 ∧
    Leave emptyRegistry "room1" 7 = .error .makesliceCapOutOfRange ∧
    (7 : Conn) ∉ Snapshot (emptyRegistry.set "room1" []) "room1" ∧
    leaveCap (emptyRegistry.set "room1" []) "room1" = -1 ∧
    Leave (emptyRegistry.set "room1" []) "room1" 7 = .error .makesliceCapOutOfRange := by
  have h1 : emptyRegistry.get "room1" = [] := rfl
  have h2 : (emptyRegistry.set "room1" []).get "room1" = [] := get_set_same _ _ _
  refine ⟨?_, ?_, Leave_of_nil _ _ _ h1, ?_, ?_, Leave_of_nil _ _ _ h2⟩
  · show (7 : Conn) ∉ emptyRegistry.get "room1"
    rw [h1]; simp
  · simp [leaveCap, h1]
  · show (7 : Conn) ∉ (emptyRegistry.set "room1" []).get "room1"
    rw [h2]; simp
  · simp [leaveCap, h2]

/-- C5: `Leave(C,X)` returns exactly when `C` has a member, and whenever it returns, the
list of `C` afterwards is the old list without the elements equal to `X`, in the old
order: `X` does not occur in it, every other connection occurs as often as before,
and the list of every other channel is the old one. -/
theorem leave_removes_by_identity (cons : Registry) (C : String) (X : Conn) :
    ((∃ after, Leave cons C X = .ok after) ↔ Snapshot cons C ≠ []) ∧
    ∀ after, Leave cons C X = .ok after →
      Snapshot after C = (Snapshot cons C).filter (fun c => c != X) ∧
      X ∉ Snapshot after C ∧
      (∀ Y, Y ≠ X → (Snapshot after C).count Y = (Snapshot cons C).count Y) ∧
      (∀ D, D ≠ C → Snapshot after D = Snapshot cons D) := by
  refine ⟨Leave_ok_iff cons C X, ?_⟩
  intro after h
  have hs : after.get C = (cons.get C).filter (fun c => c != X) := Leave_get_same _ _ _ _ h
  refine ⟨hs, ?_, ?_, ?_⟩
  · show X ∉ after.get C
    rw [hs]; exact not_mem_filter_ne _ _
  · intro Y hY
    show (after.get C).count Y = (cons.get C).count Y
    rw [hs]; exact count_filter_ne _ _ _ hY
  · intro D hD
    exact Leave_get_other _ _ _ _ _ h hD

/-- Witness of `leave_removes_by_identity`: `"room1"` holds 1 and 2, `"room2"` holds 3,
and 1 leaves `"room1"`. -/
theorem leave_removes_by_identity_witness :
    ∃ after,
      Leave (Join (Join (Join emptyRegistry "room1" 1) "room1" 2) "room2" 3) "room1" 1
        = .ok after ∧
      Snapshot after "room1" = [2] ∧ Snapshot after "room2" = [3] := by
  have hget1 : (Join (Join (Join emptyRegistry "room1" 1) "room1" 2) "room2" 3).get "room1"
      = [1, 2] := by
    rw [get_Join_other _ _ _ _ (by decide), get_Join_same, get_Join_same]; rfl
  have hget2 : (Join (Join (Join emptyRegistry "room1" 1) "room1" 2) "room2" 3).get "room2"
      = [3] := by
    rw [get_Join_same, get_Join_other _ _ _ _ (by decide), get_Join_other _ _ _ _ (by decide)]
    rfl
  have hthm := leave_removes_by_identity
    (Join (Join (Join emptyRegistry "room1" 1) "room1" 2) "room2" 3) "room1" 1
  obtain ⟨after, hafter⟩ := hthm.1.mpr (by
    show (Join (Join (Join emptyRegistry "room1" 1) "room1" 2) "room2" 3).get "room1" ≠ []
    rw [hget1]; exact List.cons_ne_nil _ _)
  obtain ⟨h1, -, -, h4⟩ := hthm.2 after hafter
  refine ⟨after, hafter, ?_, ?_⟩
  · rw [h1]
    show List.filter _ ((Join (Join (Join emptyRegistry "room1" 1) "room1" 2) "room2" 3).get
      "room1") = [2]
    rw [hget1]; rfl
  · rw [h4 "room2" (by decide)]
    exact hget2

/-! ## The connection goroutines: what holds in every reachable state -/

theorem Hub.Inv_init : Hub.init.Inv := by
  refine ⟨?_, ?_, ?_, ?_, ?_⟩
  · intro con ch h; simp [Hub.init] at h
  · intro con ch h; simp [Hub.init, emptyRegistry, Registry.get] at h
  · intro con ch h; simp [Hub.init] at h
  · intro con ch₁ ch₂ h; simp [Hub.init] at h
  · intro con ch; simp [Hub.init, emptyRegistry, Registry.get]

theorem Hub.Inv_join (h : Hub) (hi : h.Inv) (channel : String) (con : Conn)
    (fresh : con ∉ h.seen) :
    Hub.Inv ⟨Join h.cons channel con, (con, channel) :: h.live, con :: h.seen⟩ := by
  have hnot : ∀ ch, con ∉ h.cons.get ch := fun ch hm =>
    fresh (hi.live_seen con ch (hi.mem_live con ch hm))
  refine ⟨?_, ?_, ?_, ?_, ?_⟩
  · intro c ch hm0
    show c ∈ (Join h.cons channel con).get ch
    have hm1 : (c, ch) ∈ (con, channel) :: h.live := hm0
    rcases List.mem_cons.mp hm1 with heq | hm
    · injection heq with h1 h2
      subst h1; subst h2
      rw [get_Join_same]; simp
    · by_cases hch : ch = channel
      · subst hch
        rw [get_Join_same]
        exact List.mem_append_left _ (hi.live_mem c ch hm)
      · rw [get_Join_other _ _ _ _ hch]
        exact hi.live_mem c ch hm
  · intro c ch hm0
    show (c, ch) ∈ (con, channel) :: h.live
    have hm : c ∈ (Join h.cons channel con).get ch := hm0
    clear hm0
    by_cases hch : ch = channel
    · subst hch
      rw [get_Join_same] at hm
      rcases List.mem_append.mp hm with hm | hm
      · exact List.mem_cons_of_mem _ (hi.mem_live c ch hm)
      · have : c = con := by simpa using hm
        subst this
        exact List.mem_cons_self _ _
    · rw [get_Join_other _ _ _ _ hch] at hm
      exact List.mem_cons_of_mem _ (hi.mem_live c ch hm)
  · intro c ch hm0
    show c ∈ con :: h.seen
    have hm1 : (c, ch) ∈ (con, channel) :: h.live := hm0
    rcases List.mem_cons.mp hm1 with heq | hm
    · injection heq with h1 h2
      subst h1
      exact List.mem_cons_self _ _
    · exact List.mem_cons_of_mem _ (hi.live_seen c ch hm)
  · intro c ch₁ ch₂ g1 g2
    have g1 : (c, ch₁) ∈ (con, channel) :: h.live := g1
    have g2 : (c, ch₂) ∈ (con, channel) :: h.live := g2
    rcases List.mem_cons.mp g1 with e1 | h1 <;> rcases List.mem_cons.mp g2 with e2 | h2
    · injection e1 with _ a; injection e2 with _ b
      rw [a, b]
    · injection e1 with a _
      subst a
      exact absurd (hi.live_seen c ch₂ h2) fresh
    · injection e2 with a _
      subst a
      exact absurd (hi.live_seen c ch₁ h1) fresh
    · exact hi.live_chan c ch₁ ch₂ h1 h2
  · intro c ch
    show ((Join h.cons channel con).get ch).count c ≤ 1
    by_cases hch : ch = channel
    · subst hch
      rw [get_Join_same, List.count_append]
      by_cases hc : c = con
      · subst hc
        have : (h.cons.get ch).count c = 0 := List.count_eq_zero.mpr (hnot ch)
        simp [this]
      · have h0 : List.count c [con] = 0 := by
          rw [List.count_eq_zero]
          simpa using hc
        rw [h0]
        exact hi.count_le c ch
    · rw [get_Join_other _ _ _ _ hch]
      exact hi.count_le c ch

theorem Hub.Inv_teardown (h : Hub) (hi : h.Inv) (channel : String) (con : Conn)
    (cons' : Registry) (ran : Leave h.cons channel con = .ok cons') :
    Hub.Inv ⟨cons', h.live.filter (fun p => p != (con, channel)), h.seen⟩ := by
  have hsame : cons'.get channel = (h.cons.get channel).filter (fun c => c != con) :=
    Leave_get_same _ _ _ _ ran
  have hother : ∀ k, k ≠ channel → cons'.get k = h.cons.get k :=
    fun k hk => Leave_get_other _ _ _ _ _ ran hk
  have hlive : ∀ c ch, (c, ch) ∈ h.live.filter (fun p => p != (con, channel)) ↔
      (c, ch) ∈ h.live ∧ (c, ch) ≠ (con, channel) := by
    intro c ch
    simp [List.mem_filter]
  refine ⟨?_, ?_, ?_, ?_, ?_⟩
  · intro c ch hm0
    show c ∈ cons'.get ch
    obtain ⟨hm, hne⟩ := (hlive c ch).mp hm0
    by_cases hch : ch = channel
    · subst hch
      have hc : c ≠ con := fun e => hne (by rw [e])
      rw [hsame, List.mem_filter]
      exact ⟨hi.live_mem c ch hm, by simpa using hc⟩
    · rw [hother ch hch]
      exact hi.live_mem c ch hm
  · intro c ch hm0
    show (c, ch) ∈ h.live.filter (fun p => p != (con, channel))
    have hm : c ∈ cons'.get ch := hm0
    clear hm0
    rw [hlive]
    by_cases hch : ch = channel
    · subst hch
      rw [hsame, List.mem_filter] at hm
      have hc : c ≠ con := by simpa using hm.2
      exact ⟨hi.mem_live c ch hm.1, fun e => hc (by injection e)⟩
    · rw [hother ch hch] at hm
      exact ⟨hi.mem_live c ch hm, fun e => hch (by injection e)⟩
  · intro c ch hm
    exact hi.live_seen c ch ((hlive c ch).mp hm).1
  · intro c ch₁ ch₂ h1 h2
    exact hi.live_chan c ch₁ ch₂ ((hlive _ _).mp h1).1 ((hlive _ _).mp h2).1
  · intro c ch
    show (cons'.get ch).count c ≤ 1
    by_cases hch : ch = channel
    · subst hch
      rw [hsame]
      exact le_trans ((List.filter_sublist _).count_le c) (hi.count_le c ch)
    · rw [hother ch hch]
      exact hi.count_le c ch

theorem Hub.Inv_of_reachable (h : Hub) (hr : Reachable h) : h.Inv := by
  induction hr with
  | init => exact Hub.Inv_init
  | step _ hs ih =>
    cases hs with
    | join channel con fresh => exact Hub.Inv_join _ ih channel con fresh
    | teardown channel con cons' own ran => exact Hub.Inv_teardown _ ih channel con cons' ran

/-- C4: in every state reachable from the empty registry by joins of connections that
have not joined before and by teardowns of live goroutines, a connection is in the list
of at most one channel, and at most once in that list. -/
theorem conn_in_one_channel_once (h : Hub) (hr : Reachable h) (con : Conn) :
    (∀ ch₁ ch₂, con ∈ Snapshot h.cons ch₁ → con ∈ Snapshot h.cons ch₂ → ch₁ = ch₂) ∧
    (∀ ch, (Snapshot h.cons ch).count con ≤ 1) := by
  have hi := Hub.Inv_of_reachable h hr
  refine ⟨?_, ?_⟩
  · intro ch₁ ch₂ h1 h2
    exact hi.live_chan con ch₁ ch₂ (hi.mem_live con ch₁ h1) (hi.mem_live con ch₂ h2)
  · intro ch
    exact hi.count_le con ch

/-- Witness of `conn_in_one_channel_once`: the state after connection 1 joined
`"room1"` and connection 2 joined `"room2"`. -/
theorem conn_in_one_channel_once_witness :
    (∀ ch₁ ch₂,
      (1 : Conn) ∈ Snapshot (Join (Join emptyRegistry "room1" 1) "room2" 2) ch₁ →
      (1 : Conn) ∈ Snapshot (Join (Join emptyRegistry "room1" 1) "room2" 2) ch₂ → ch₁ = ch₂) ∧
    (∀ ch, (Snapshot (Join (Join emptyRegistry "room1" 1) "room2" 2) ch).count 1 ≤ 1) :=
  conn_in_one_channel_once
    ⟨Join (Join emptyRegistry "room1" 1) "room2" 2, [(2, "room2"), (1, "room1")], [2, 1]⟩
    (Reachable.step
      (Reachable.step Reachable.init (Step.join Hub.init "room1" 1 (by simp [Hub.init])))
      (Step.join ⟨Join emptyRegistry "room1" 1, [(1, "room1")], [1]⟩ "room2" 2 (by simp)))
    1

/-- C10: in every reachable state, for every live goroutine (connection `con`, channel
`ch`): `con` is in the list of `ch`, that list is not empty, the capacity
`len(h.cons[channel])-1` its teardown asks of `make` is not negative, and its
teardown returns instead of panicking. -/
theorem teardown_cannot_panic (h : Hub) (hr : Reachable h) (con : Conn) (ch : String)
    (hlive : (con, ch) ∈ h.live) :
    con ∈ h.cons.get ch ∧ h.cons.get ch ≠ [] ∧ 0 ≤ leaveCap h.cons ch ∧
    ∃ cons', Leave h.cons ch con = .ok cons' ∧
      Step h ⟨cons', h.live.filter (fun p => p != (con, ch)), h.seen⟩ := by
  have hi := Hub.Inv_of_reachable h hr
  have hmem : con ∈ h.cons.get ch := hi.live_mem con ch hlive
  have hne : h.cons.get ch ≠ [] := List.ne_nil_of_mem hmem
  have hcap : ¬ leaveCap h.cons ch < 0 := by
    rw [leaveCap_neg_iff]; exact hne
  refine ⟨hmem, hne, not_lt.mp hcap, _, Leave_of_ne_nil _ _ _ hne, ?_⟩
  exact Step.teardown h ch con _ hlive (Leave_of_ne_nil _ _ _ hne)

/-- Witness of `teardown_cannot_panic`: connection 1 joined `"room1"`, connection 2 joined
`"room1"`, connection 2 was torn down, and now connection 1 is torn down. -/
theorem teardown_cannot_panic_witness :
    ∃ cons₂, Leave (Join (Join emptyRegistry "room1" 1) "room1" 2) "room1" 2 = .ok cons₂ ∧
      (1 : Conn) ∈ cons₂.get "room1" ∧ cons₂.get "room1" ≠ [] ∧ 0 ≤ leaveCap cons₂ "room1" ∧
      ∃ cons', Leave cons₂ "room1" 1 = .ok cons' ∧
        Step ⟨cons₂, [(1, "room1")], [2, 1]⟩
          ⟨cons', [(1, "room1")].filter (fun p => p != (1, "room1")), [2, 1]⟩ := by
  have hget : (Join (Join emptyRegistry "room1" 1) "room1" 2).get "room1" = [1, 2] := by
    rw [get_Join_same, get_Join_same]; rfl
  have hne : (Join (Join emptyRegistry "room1" 1) "room1" 2).get "room1" ≠ [] := by
    rw [hget]; exact List.cons_ne_nil _ _
  have hleave := Leave_of_ne_nil (Join (Join emptyRegistry "room1" 1) "room1" 2) "room1" 2 hne
  have hr1 : Reachable ⟨Join emptyRegistry "room1" 1, [(1, "room1")], [1]⟩ :=
    Reachable.step Reachable.init (Step.join Hub.init "room1" 1 (by simp [Hub.init]))
  have hr2 : Reachable
      ⟨Join (Join emptyRegistry "room1" 1) "room1" 2, [(2, "room1"), (1, "room1")], [2, 1]⟩ :=
    Reachable.step hr1
      (Step.join ⟨Join emptyRegistry "room1" 1, [(1, "room1")], [1]⟩ "room1" 2 (by simp))
  have hr3 := Reachable.step hr2
    (Step.teardown _ "room1" 2 _ (List.mem_cons_self _ _) hleave)
  exact ⟨_, hleave, teardown_cannot_panic _ hr3 1 "room1" (by decide)⟩

/-! ## Credentials -/

theorem dropWhile_replicate_a (n : Nat) (r : List Char) :
    (List.replicate n 'a' ++ '.' :: r).dropWhile (fun c => c == 'a') = '.' :: r := by
  induction n with
  | zero => simp [List.dropWhile_cons]
  | succ k ih => simp [List.replicate_succ, List.dropWhile_cons, ih]

theorem takeWhile_replicate_a (n : Nat) (r : List Char) :
    ((List.replicate n 'a' ++ '.' :: r).takeWhile (fun c => c == 'a')).length = n := by
  induction n with
  | zero => simp [List.takeWhile_cons]
  | succ k ih => simp [List.replicate_succ, List.takeWhile_cons, ih]

theorem unaryDecode_unaryEncode (channel : String) (exp : Int) :
    unaryDecode (unaryEncode channel exp) = some (channel, exp) := by
  unfold unaryDecode unaryEncode
  simp only [dropWhile_replicate_a, takeWhile_replicate_a]
  by_cases h : exp < 0
  · simp [h, abs_of_neg h]
  · simp [h, abs_of_nonneg (not_lt.mp h)]

theorem unaryEncode_ne_empty (channel : String) (exp : Int) :
    unaryEncode channel exp ≠ "" := by
  intro h
  have := congrArg String.data h
  simp [unaryEncode] at this

theorem unaryJwt_lawful : unaryJwt.Lawful := by
  intro channel key exp now _ _ _ _
  refine ⟨unaryEncode channel exp, ?_, unaryEncode_ne_empty channel exp, ?_, ?_⟩
  · simp [unaryJwt, connectionClaims, ChannelKey]
  · intro hlt
    simp [unaryJwt, unaryDecode_unaryEncode, hlt]
  · intro hge
    have : ¬ now < exp * Second := not_lt.mpr hge
    exact ⟨"token is expired", by simp [unaryJwt, unaryDecode_unaryEncode, this]⟩

theorem wrapInt64_of_isInt64 (x : Int) (h : isInt64 x) : wrapInt64 x = x := by
  unfold isInt64 at h
  unfold wrapInt64
  omega

theorem expiryUnix_of_ttl (now ttl : Int) (h1 : 1 ≤ ttl) (h2 : ttl ≤ 9223372036) :
    expiryUnix now ttl = now / 1000000000 + ttl := by
  have hw : wrapInt64 (ttl * Second) = ttl * 1000000000 := by
    apply wrapInt64_of_isInt64
    unfold isInt64 Second
    omega
  unfold expiryUnix
  rw [hw]
  unfold Second
  omega

theorem getChannel_WithValue (ctx : Context) (channel : String) :
    getChannel (ctx.WithValue ChannelKey (.str channel)) = (channel, true) := by
  simp [getChannel, Context.WithValue, Context.Value, List.lookup]

theorem JWTMiddleware_of_parse_ok (L : JwtLib) (cfg : JWTConfig) (now : Int) (r : Request)
    (claims : MapClaims) (channel : String) (hne : r.token ≠ "")
    (hp : L.Parse r.token cfg.Secret now = .ok ⟨claims, true⟩)
    (hc : claims "channel" = some (.str channel)) :
    JWTMiddleware L cfg now r = ⟨none, [r.ctx.WithValue ChannelKey (.str channel)]⟩ := by
  simp [JWTMiddleware, hne, hp, hc]

theorem JWTMiddleware_of_parse_error (L : JwtLib) (cfg : JWTConfig) (now : Int) (r : Request)
    (err : String) (hp : L.Parse r.token cfg.Secret now = .error err) :
    ∃ body, JWTMiddleware L cfg now r = ⟨some (401, body), []⟩ := by
  by_cases hne : r.token = ""
  · exact ⟨"Missing token", by simp [JWTMiddleware, hne]⟩
  · exact ⟨"Invalid token", by simp [JWTMiddleware, hne, hp]⟩

theorem LoadConfig_secret_ne_empty (httpPort jwtSecret : String) (jwtTTL : Int) :
    (LoadConfig httpPort jwtSecret jwtTTL).JWT.Secret ≠ "" := by
  unfold LoadConfig
  by_cases h : jwtSecret = ""
  · simp [h]
  · simp [h]

theorem LoadConfig_ttl_ne_zero (httpPort jwtSecret : String) (jwtTTL : Int) :
    (LoadConfig httpPort jwtSecret jwtTTL).JWT.TTL ≠ 0 := by
  unfold LoadConfig
  by_cases h : jwtTTL = 0
  · simp [h]
  · simp [h]

theorem round_trip_of_cfg (L : JwtLib) (hL : L.Lawful) (cfg : JWTConfig) (c : String)
    (now v : Int) (ctx : Context) (hkey : cfg.Secret ≠ "") (hpos : 1 ≤ cfg.TTL)
    (hmax : cfg.TTL ≤ 9223372036) (hnow : 0 ≤ now) (hnow' : now ≤ 9223372036854775807)
    (hv : v ≤ now + (cfg.TTL - 1) * Second) :
    ∃ tok, generateConnectionToken L now c cfg.TTL cfg = .ok tok ∧
      JWTMiddleware L cfg v ⟨tok, ctx⟩ = ⟨none, [ctx.WithValue ChannelKey (.str c)]⟩ ∧
      getChannel (ctx.WithValue ChannelKey (.str c)) = (c, true) := by
  have hexp := expiryUnix_of_ttl now cfg.TTL hpos hmax
  have hne0 : expiryUnix now cfg.TTL ≠ 0 := by
    rw [hexp]; omega
  have hlo : -9007199254740992 < expiryUnix now cfg.TTL := by
    rw [hexp]; omega
  have hhi : expiryUnix now cfg.TTL < 9007199254740992 := by
    rw [hexp]; omega
  obtain ⟨tok, hsign, htok, hok, -⟩ :=
    hL c cfg.Secret (expiryUnix now cfg.TTL) v hkey hne0 hlo hhi
  have hlt : v < expiryUnix now cfg.TTL * Second := by
    rw [hexp]
    unfold Second at hv ⊢
    omega
  refine ⟨tok, hsign, ?_, getChannel_WithValue ctx c⟩
  exact JWTMiddleware_of_parse_ok L cfg v ⟨tok, ctx⟩ _ c htok (hok hlt)
    (by simp [connectionClaims, ChannelKey])

/-- A token whose expiry second is not after the instant of issue is rejected at that
instant: for a JWT package that meets `JwtLib.Lawful` and a non-empty secret, when
`expiryUnix now cfg.TTL` is not 0, is below `2^53` in absolute value and is not after
`now`, the middleware answers 401 to the token just issued. -/
theorem rejected_of_expired (L : JwtLib) (hL : L.Lawful) (cfg : JWTConfig) (c : String)
    (now : Int) (ctx : Context) (hkey : cfg.Secret ≠ "")
    (hne0 : expiryUnix now cfg.TTL ≠ 0)
    (hlo : -9007199254740992 < expiryUnix now cfg.TTL)
    (hhi : expiryUnix now cfg.TTL < 9007199254740992)
    (hge : expiryUnix now cfg.TTL * Second ≤ now) :
    ∃ tok, generateConnectionToken L now c cfg.TTL cfg = .ok tok ∧
      ∃ body, JWTMiddleware L cfg now ⟨tok, ctx⟩ = ⟨some (401, body), []⟩ := by
  obtain ⟨tok, hsign, -, -, herr⟩ :=
    hL c cfg.Secret (expiryUnix now cfg.TTL) now hkey hne0 hlo hhi
  obtain ⟨err, herr⟩ := herr hge
  exact ⟨tok, hsign, JWTMiddleware_of_parse_error L cfg now ⟨tok, ctx⟩ err herr⟩

/-- C7, as amended: for a JWT package that meets `JwtLib.Lawful`, every configuration
`LoadConfig` returns whose TTL satisfies `1 ≤ TTL ≤ 9223372036`, and every channel `c`:
the token that `generateConnectionToken(c, cfg.TTL, cfg)` returns at time `now` (a clock
reading from 1970 on that fits an `int64` of nanoseconds), presented to `JWTMiddleware`
with the same configuration at any time up to `now + (TTL - 1)` seconds, so in
particular at once, is accepted: the wrapped handler is called once, and `getChannel`
on the context it gets returns `(c, true)`. -/
theorem credential_round_trip (L : JwtLib) (hL : L.Lawful) (httpPort jwtSecret : String)
    (jwtTTL : Int) (c : String) (now v : Int) (ctx : Context)
    (hpos : 1 ≤ (LoadConfig httpPort jwtSecret jwtTTL).JWT.TTL)
    (hmax : (LoadConfig httpPort jwtSecret jwtTTL).JWT.TTL ≤ 9223372036)
    (hnow : 0 ≤ now) (hnow' : now ≤ 9223372036854775807)
    (hv : v ≤ now + ((LoadConfig httpPort jwtSecret jwtTTL).JWT.TTL - 1) * Second) :
    ∃ tok,
      generateConnectionToken L now c (LoadConfig httpPort jwtSecret jwtTTL).JWT.TTL
        (LoadConfig httpPort jwtSecret jwtTTL).JWT = .ok tok ∧
      JWTMiddleware L (LoadConfig httpPort jwtSecret jwtTTL).JWT v ⟨tok, ctx⟩
        = ⟨none, [ctx.WithValue ChannelKey (.str c)]⟩ ∧
      getChannel (ctx.WithValue ChannelKey (.str c)) = (c, true) :=
  round_trip_of_cfg L hL (LoadConfig httpPort jwtSecret jwtTTL).JWT c now v ctx
    (LoadConfig_secret_ne_empty httpPort jwtSecret jwtTTL) hpos hmax hnow hnow' hv

/-- Witness of `credential_round_trip`: the configuration `LoadConfig` gives when nothing
is set (TTL 600, secret `"secret"`), channel `"room1"`, issued and validated 1 s after
the epoch, with the unary instance of the package. -/
theorem credential_round_trip_witness :
    ∃ tok,
      generateConnectionToken unaryJwt 1000000000 "room1" (LoadConfig "" "" 0).JWT.TTL
        (LoadConfig "" "" 0).JWT = .ok tok ∧
      JWTMiddleware unaryJwt (LoadConfig "" "" 0).JWT 1000000000 ⟨tok, []⟩
        = ⟨none, [Context.WithValue [] ChannelKey (.str "room1")]⟩ ∧
      getChannel (Context.WithValue [] ChannelKey (.str "room1")) = ("room1", true) :=
  credential_round_trip unaryJwt unaryJwt_lawful "" "" 0 "room1"
    1000000000 1000000000 [] (by decide) (by decide) (by decide) (by decide) (by decide)

/-- C7 as stated fails for configurations `LoadConfig` can produce.  With `JWT_TTL=-1`
the configuration has TTL `-1` (only 0 is replaced by 600); a token issued for `"room1"`
5 s after the epoch carries `exp = 4`, and with every JWT package that meets
`JwtLib.Lawful` (there is one) the middleware answers 401 at that same instant and
does not call the wrapped handler.  With `JWT_TTL=9223372037` the `int64` product
`ttl * time.Second` wraps to a negative duration, `exp = -9223372032`, and the token
is rejected in the same way. -/
theorem negative_ttl_config_breaks_round_trip :
    (LoadConfig "" "" (-1)).JWT = ⟨-1, "secret"⟩ ∧
    isInt64 (-1) ∧
    expiryUnix 5000000000 (LoadConfig "" "" (-1)).JWT.TTL = 4 ∧
    unaryJwt.Lawful ∧
    (∀ L : JwtLib, L.Lawful →
      ∃ tok, generateConnectionToken L 5000000000 "room1" (LoadConfig "" "" (-1)).JWT.TTL
          (LoadConfig "" "" (-1)).JWT = .ok tok ∧
        ∃ body, JWTMiddleware L (LoadConfig "" "" (-1)).JWT 5000000000 ⟨tok, []⟩
          = ⟨some (401, body), []⟩) ∧
    (LoadConfig "" "" 9223372037).JWT = ⟨9223372037, "secret"⟩ ∧
    isInt64 9223372037 ∧
    expiryUnix 5000000000 (LoadConfig "" "" 9223372037).JWT.TTL = -9223372032 ∧
    (∀ L : JwtLib, L.Lawful →
      ∃ tok, generateConnectionToken L 5000000000 "room1"
          (LoadConfig "" "" 9223372037).JWT.TTL (LoadConfig "" "" 9223372037).JWT = .ok tok ∧
        ∃ body, JWTMiddleware L (LoadConfig "" "" 9223372037).JWT 5000000000 ⟨tok, []⟩
          = ⟨some (401, body), []⟩) := by
  refine ⟨by decide, by decide, by decide, unaryJwt_lawful, ?_, by decide, by decide,
    by decide, ?_⟩
  · intro L hL
    exact rejected_of_expired L hL (LoadConfig "" "" (-1)).JWT "room1" 5000000000 []
      (by decide) (by decide) (by decide) (by decide) (by decide)
  · intro L hL
    exact rejected_of_expired L hL (LoadConfig "" "" 9223372037).JWT "room1" 5000000000 []
      (by decide) (by decide) (by decide) (by decide) (by decide)

/-! ## The fan-out of `Handler.Broadcast` -/

theorem fanOutLoop_cons {σ : Type} (T : Transport σ) (message : String)
    (l : List Conn) (s : FanOut σ) :
    (fanOutLoop T message l s).cons = s.cons := by
  induction l generalizing s with
  | nil => rfl
  | cons a t ih =>
    rcases h : T.WriteMessage s.world a TextMessage message with ⟨w, r⟩
    cases r <;> simp [fanOutLoop, h, ih]

/-- The calls the loop makes are those of a prefix of the list, in order; when no panic
ended it, the prefix is the whole list. -/
theorem fanOutLoop_prefix {σ : Type} (T : Transport σ) (message : String)
    (l : List Conn) (s : FanOut σ) :
    ∃ done rest, l = done ++ rest ∧
      (fanOutLoop T message l s).world = done.foldl (writeStep T message) s.world ∧
      ((fanOutLoop T message l s).died = false → rest = []) := by
  induction l generalizing s with
  | nil => exact ⟨[], [], rfl, rfl, fun _ => rfl⟩
  | cons a t ih =>
    rcases h : T.WriteMessage s.world a TextMessage message with ⟨w, r⟩
    have hw : writeStep T message s.world a = w := by simp [writeStep, h]
    cases r with
    | ok =>
      obtain ⟨done, rest, h1, h2, h3⟩ := ih { s with world := w }
      refine ⟨a :: done, rest, by rw [h1]; rfl, ?_, ?_⟩
      · simp only [fanOutLoop, h, List.foldl_cons, hw]
        exact h2
      · simp only [fanOutLoop, h]
        exact h3
    | error err =>
      obtain ⟨done, rest, h1, h2, h3⟩ := ih
        { s with world := w, logs := s.logs ++ ["Error broadcasting message: " ++ err] }
      refine ⟨a :: done, rest, by rw [h1]; rfl, ?_, ?_⟩
      · simp only [fanOutLoop, h, List.foldl_cons, hw]
        exact h2
      · simp only [fanOutLoop, h]
        exact h3
    | panic msg =>
      refine ⟨[a], t, rfl, ?_, ?_⟩
      · simp [fanOutLoop, h, hw]
      · simp [fanOutLoop, h]

theorem fanOutLoop_world_of_alive {σ : Type} (T : Transport σ) (message : String)
    (l : List Conn) (s : FanOut σ) (h : (fanOutLoop T message l s).died = false) :
    (fanOutLoop T message l s).world = l.foldl (writeStep T message) s.world := by
  obtain ⟨done, rest, h1, h2, h3⟩ := fanOutLoop_prefix T message l s
  have hr := h3 h
  subst hr
  rw [h2, h1, List.append_nil]

theorem fanOutLoop_alive {σ : Type} (T : Transport σ) (message : String)
    (l : List Conn) (s : FanOut σ)
    (hsafe : ∀ w conn, conn ∈ l → (T.WriteMessage w conn TextMessage message).2.isPanic = false) :
    (fanOutLoop T message l s).died = s.died := by
  induction l generalizing s with
  | nil => rfl
  | cons a t ih =>
    have ht : ∀ w conn, conn ∈ t →
        (T.WriteMessage w conn TextMessage message).2.isPanic = false :=
      fun w conn hc => hsafe w conn (List.mem_cons_of_mem _ hc)
    have ha := hsafe s.world a (List.mem_cons_self _ _)
    rcases h : T.WriteMessage s.world a TextMessage message with ⟨w, r⟩
    rw [h] at ha
    cases r with
    | ok => simp [fanOutLoop, h, ih _ ht]
    | error err => simp [fanOutLoop, h, ih _ ht]
    | panic msg => simp [WriteResult.isPanic] at ha

/-- On the transport `wire`, when no element of the list is being written by another
goroutine: every element is called once, in order, with the payload; the loop is not
ended by a panic; one line is logged for each closed element. -/
theorem fanOutLoop_wire (message : String) (l : List Conn) (s : FanOut Peers)
    (hfree : ∀ conn, conn ∈ l → conn ∉ s.world.writing) :
    (fanOutLoop wire message l s).died = s.died ∧
    (fanOutLoop wire message l s).world.calls
      = s.world.calls ++ l.map (fun conn => (conn, TextMessage, message)) ∧
    (fanOutLoop wire message l s).logs
      = s.logs ++ (l.filter (fun conn => decide (conn ∈ s.world.closed))).map
          (fun _ => "Error broadcasting message: " ++ closedErr) := by
  induction l generalizing s with
  | nil => simp [fanOutLoop]
  | cons a t ih =>
    have ha : a ∉ s.world.writing := hfree a (List.mem_cons_self _ _)
    have ht : ∀ conn, conn ∈ t → conn ∉ s.world.writing :=
      fun conn hc => hfree conn (List.mem_cons_of_mem _ hc)
    by_cases hc : a ∈ s.world.closed
    · have h : wire.WriteMessage s.world a TextMessage message
          = ({ s.world with calls := s.world.calls ++ [(a, TextMessage, message)] },
              .error closedErr) := by
        simp [wire, ha, hc]
      obtain ⟨h1, h2, h3⟩ := ih
        { s with world := { s.world with calls := s.world.calls ++ [(a, TextMessage, message)] },
                 logs := s.logs ++ ["Error broadcasting message: " ++ closedErr] } ht
      simp only [fanOutLoop, h]
      refine ⟨h1, ?_, ?_⟩
      · rw [h2]; simp
      · rw [h3]; simp [List.filter_cons, hc]
    · have h : wire.WriteMessage s.world a TextMessage message
          = ({ s.world with calls := s.world.calls ++ [(a, TextMessage, message)] }, .ok) := by
        simp [wire, ha, hc]
      obtain ⟨h1, h2, h3⟩ := ih
        { s with world := { s.world with calls := s.world.calls ++ [(a, TextMessage, message)] } }
        ht
      simp only [fanOutLoop, h]
      refine ⟨h1, ?_, ?_⟩
      · rw [h2]; simp
      · rw [h3]; simp [List.filter_cons, hc]

theorem Broadcast_well_formed (C p : String) (hC : C ≠ "") (hp : p ≠ "") :
    Broadcast (.ok ⟨C, p⟩) = ⟨200, "", some (C, p)⟩ := by
  simp [Broadcast, hC, hp]

theorem serveBroadcast_well_formed {σ : Type} (T : Transport σ) (cons : Registry)
    (C p : String) (w : σ) (hC : C ≠ "") (hp : p ≠ "") :
    serveBroadcast T cons (.ok ⟨C, p⟩) w
      = (⟨200, "", some (C, p)⟩, some (fanOut T cons C p w)) := by
  simp [serveBroadcast, Broadcast_well_formed C p hC hp]

/-- C3, as amended: for every registry, every transport and every request with a
non-empty channel `C` and a non-empty message `p`, the handler answers 200 and starts
the fan-out for `(C, p)`.  The fan-out calls `WriteMessage(TextMessage, p)` on the
entries of the list of `C`, in order, and on nothing else: the world it leaves is the
world after those calls on a prefix of the list, and on the whole list when no call
panicked, which is so when no call on a member can panic.  When `C` has no entry or an
empty list no call is made and nothing is logged.  Seen from the peers (`wire`), when
no member of `C` is being written by another goroutine: each member is called with
`p`, and a connection that is not a member of `C` gets no call. -/
theorem broadcast_delivers_to_members {σ : Type} (T : Transport σ) (cons : Registry)
    (C p : String) (w : σ) (hC : C ≠ "") (hp : p ≠ "") :
    ∃ out, serveBroadcast T cons (.ok ⟨C, p⟩) w = (⟨200, "", some (C, p)⟩, some out) ∧
      (∃ done rest, Snapshot cons C = done ++ rest ∧
        out.world = done.foldl (writeStep T p) w ∧ (out.died = false → rest = [])) ∧
      (out.died = false → out.world = (Snapshot cons C).foldl (writeStep T p) w) ∧
      ((∀ w' conn, conn ∈ Snapshot cons C →
          (T.WriteMessage w' conn TextMessage p).2.isPanic = false) → out.died = false) ∧
      ((cons C = none ∨ cons C = some []) →
        out.died = false ∧ out.world = w ∧ out.logs = []) ∧
      ∀ q : Peers, (∀ conn, conn ∈ Snapshot cons C → conn ∉ q.writing) →
        ∃ seen,
          serveBroadcast wire cons (.ok ⟨C, p⟩) q = (⟨200, "", some (C, p)⟩, some seen) ∧
          seen.died = false ∧
          seen.world.calls
            = q.calls ++ (Snapshot cons C).map (fun conn => (conn, TextMessage, p)) ∧
          (∀ conn, conn ∈ Snapshot cons C → (conn, TextMessage, p) ∈ seen.world.calls) ∧
          (∀ conn ty d, conn ∉ Snapshot cons C → (conn, ty, d) ∈ seen.world.calls →
            (conn, ty, d) ∈ q.calls) := by
  refine ⟨fanOut T cons C p w, serveBroadcast_well_formed T cons C p w hC hp,
    fanOutLoop_prefix T p (cons.get C) ⟨w, [], false, cons⟩,
    fanOutLoop_world_of_alive T p (cons.get C) ⟨w, [], false, cons⟩, ?_, ?_, ?_⟩
  · intro hsafe
    exact fanOutLoop_alive T p (cons.get C) ⟨w, [], false, cons⟩ hsafe
  · intro hempty
    have hnil : cons.get C = [] := by
      rcases hempty with h | h <;> simp [Registry.get, h]
    simp [fanOut, hnil, fanOutLoop]
  · intro q hfree
    obtain ⟨h1, h2, -⟩ := fanOutLoop_wire p (cons.get C) ⟨q, [], false, cons⟩ hfree
    have h2 : (fanOut wire cons C p q).world.calls
        = q.calls ++ (Snapshot cons C).map (fun conn => (conn, TextMessage, p)) := h2
    refine ⟨fanOut wire cons C p q, serveBroadcast_well_formed wire cons C p q hC hp,
      h1, h2, ?_, ?_⟩
    · intro conn hmem
      rw [h2]
      exact List.mem_append_right _ (List.mem_map.mpr ⟨conn, hmem, rfl⟩)
    · intro conn ty d hnot hin
      rw [h2] at hin
      rcases List.mem_append.mp hin with hin | hin
      · exact hin
      · obtain ⟨c, hc, heq⟩ := List.mem_map.mp hin
        injection heq with e1 _
        subst e1
        exact absurd hc hnot

/-- Witness of `broadcast_delivers_to_members`: `"room1"` holds 1 and 2, `"room2"` holds
3, nobody is being written, and `"hi"` is broadcast to `"room1"`: the peers see one
call on 1 and one call on 2, each with `"hi"`, and none on 3. -/
theorem broadcast_delivers_to_members_witness :
    ∃ seen,
      serveBroadcast wire (Join (Join (Join emptyRegistry "room1" 1) "room1" 2) "room2" 3)
        (.ok ⟨"room1", "hi"⟩) ⟨[], [], []⟩ = (⟨200, "", some ("room1", "hi")⟩, some seen) ∧
      seen.died = false ∧
      seen.world.calls = [(1, TextMessage, "hi"), (2, TextMessage, "hi")] := by
  have hget : Snapshot (Join (Join (Join emptyRegistry "room1" 1) "room1" 2) "room2" 3)
      "room1" = [1, 2] := by
    show Registry.get _ "room1" = _
    rw [get_Join_other _ _ _ _ (by decide), get_Join_same, get_Join_same]; rfl
  obtain ⟨-, -, -, -, -, -, hpeers⟩ := broadcast_delivers_to_members wire
    (Join (Join (Join emptyRegistry "room1" 1) "room1" 2) "room2" 3)
    "room1" "hi" ⟨[], [], []⟩ (by decide) (by decide)
  obtain ⟨seen, h1, h2, h3, -⟩ := hpeers ⟨[], [], []⟩ (by intro conn _; simp)
  refine ⟨seen, h1, h2, ?_⟩
  rw [h3, hget]
  rfl

/-- C3 as stated fails when a call of `WriteMessage` panics: `"room1"` holds 1 and 2 and
another goroutine is writing connection 1 (a second fan-out under the shared read
lock).  The handler answers 200, the fan-out calls `WriteMessage` on 1, that call
panics and ends the fan-out, and connection 2, a member of `"room1"`, is written
nothing. -/
theorem broadcast_stops_at_panicking_write :
    (2 : Conn) ∈ Snapshot (Join (Join emptyRegistry "room1" 1) "room1" 2) "room1" ∧
    serveBroadcast wire (Join (Join emptyRegistry "room1" 1) "room1" 2)
        (.ok ⟨"room1", "hi"⟩) ⟨[], [], [1]⟩
      = (⟨200, "", some ("room1", "hi")⟩,
          some (fanOut wire (Join (Join emptyRegistry "room1" 1) "room1" 2) "room1" "hi"
            ⟨[], [], [1]⟩)) ∧
    (fanOut wire (Join (Join emptyRegistry "room1" 1) "room1" 2) "room1" "hi"
      ⟨[], [], [1]⟩).died = true ∧
    (fanOut wire (Join (Join emptyRegistry "room1" 1) "room1" 2) "room1" "hi"
      ⟨[], [], [1]⟩).world.calls = [(1, TextMessage, "hi")] ∧
    ∀ ty d, (2, ty, d) ∉
      (fanOut wire (Join (Join emptyRegistry "room1" 1) "room1" 2) "room1" "hi"
        ⟨[], [], [1]⟩).world.calls := by
  have hget : (Join (Join emptyRegistry "room1" 1) "room1" 2).get "room1" = [1, 2] := by
    rw [get_Join_same, get_Join_same]; rfl
  have hcalls : (fanOut wire (Join (Join emptyRegistry "room1" 1) "room1" 2) "room1" "hi"
      ⟨[], [], [1]⟩).world.calls = [(1, TextMessage, "hi")] := by
    unfold fanOut
    rw [hget]
    rfl
  refine ⟨?_, serveBroadcast_well_formed _ _ _ _ _ (by decide) (by decide), ?_, hcalls, ?_⟩
  · show (2 : Conn) ∈ (Join (Join emptyRegistry "room1" 1) "room1" 2).get "room1"
    rw [hget]; decide
  · unfold fanOut
    rw [hget]
    rfl
  · intro ty d hmem
    rw [hcalls] at hmem
    simp at hmem

/-- C6, as amended: for every registry, every transport (any pattern of returned errors)
and every well-formed request, the handler answers 200 whatever the writes will do;
unless a call of `WriteMessage` panics, which no call does when none on a member can,
the fan-out calls `WriteMessage(TextMessage, p)` on every entry of the list of `C`, in
order; it leaves the registry as it found it.  Seen from the peers (`wire`), when no
member of `C` is being written by another goroutine: every member is called with `p`,
the closed ones included, one line is logged for each closed member, and the registry
is the same. -/
theorem broadcast_tolerates_write_failures {σ : Type} (T : Transport σ) (cons : Registry)
    (C p : String) (w : σ) (hC : C ≠ "") (hp : p ≠ "") :
    ∃ out, serveBroadcast T cons (.ok ⟨C, p⟩) w = (⟨200, "", some (C, p)⟩, some out) ∧
      (out.died = false → out.world = (Snapshot cons C).foldl (writeStep T p) w) ∧
      ((∀ w' conn, conn ∈ Snapshot cons C →
          (T.WriteMessage w' conn TextMessage p).2.isPanic = false) → out.died = false) ∧
      out.cons = cons ∧
      ∀ q : Peers, (∀ conn, conn ∈ Snapshot cons C → conn ∉ q.writing) →
        ∃ seen,
          serveBroadcast wire cons (.ok ⟨C, p⟩) q = (⟨200, "", some (C, p)⟩, some seen) ∧
          seen.died = false ∧
          seen.world.calls
            = q.calls ++ (Snapshot cons C).map (fun conn => (conn, TextMessage, p)) ∧
          seen.logs = ((Snapshot cons C).filter (fun conn => decide (conn ∈ q.closed))).map
            (fun _ => "Error broadcasting message: " ++ closedErr) ∧
          seen.cons = cons := by
  refine ⟨fanOut T cons C p w, serveBroadcast_well_formed T cons C p w hC hp,
    fanOutLoop_world_of_alive T p (cons.get C) ⟨w, [], false, cons⟩, ?_,
    fanOutLoop_cons T p (cons.get C) ⟨w, [], false, cons⟩, ?_⟩
  · intro hsafe
    exact fanOutLoop_alive T p (cons.get C) ⟨w, [], false, cons⟩ hsafe
  · intro q hfree
    obtain ⟨h1, h2, h3⟩ := fanOutLoop_wire p (cons.get C) ⟨q, [], false, cons⟩ hfree
    refine ⟨fanOut wire cons C p q, serveBroadcast_well_formed wire cons C p q hC hp,
      h1, h2, ?_, fanOutLoop_cons wire p (cons.get C) ⟨q, [], false, cons⟩⟩
    have h3 : (fanOut wire cons C p q).logs
        = [] ++ ((cons.get C).filter (fun conn => decide (conn ∈ q.closed))).map
            (fun _ => "Error broadcasting message: " ++ closedErr) := h3
    rw [h3, List.nil_append]
    rfl

/-- Witness of `broadcast_tolerates_write_failures`: `"room1"` holds 1, 2 and 3, all
three transports are closed, so every write returns an error; all three are still
called with `"hi"` and three lines are logged. -/
theorem broadcast_tolerates_write_failures_witness :
    ∃ seen,
      serveBroadcast wire (Join (Join (Join emptyRegistry "room1" 1) "room1" 2) "room1" 3)
        (.ok ⟨"room1", "hi"⟩) ⟨[], [1, 2, 3], []⟩
        = (⟨200, "", some ("room1", "hi")⟩, some seen) ∧
      seen.died = false ∧
      seen.world.calls = [(1, TextMessage, "hi"), (2, TextMessage, "hi"), (3, TextMessage, "hi")] ∧
      seen.logs.length = 3 := by
  have hget : Snapshot (Join (Join (Join emptyRegistry "room1" 1) "room1" 2) "room1" 3)
      "room1" = [1, 2, 3] := by
    show Registry.get _ "room1" = _
    rw [get_Join_same, get_Join_same, get_Join_same]; rfl
  obtain ⟨-, -, -, -, -, hpeers⟩ := broadcast_tolerates_write_failures wire
    (Join (Join (Join emptyRegistry "room1" 1) "room1" 2) "room1" 3)
    "room1" "hi" ⟨[], [1, 2, 3], []⟩ (by decide) (by decide)
  obtain ⟨seen, h1, h2, h3, h4, -⟩ := hpeers ⟨[], [1, 2, 3], []⟩ (by intro conn _; simp)
  refine ⟨seen, h1, h2, ?_, ?_⟩
  · rw [h3, hget]; rfl
  · rw [h4, hget]; rfl

/-- C6 as stated fails when the failure of a write is a panic: `"room1"` holds 1, 2 and
3, the transport of 1 is closed and another goroutine is writing connection 2.  The
write on 1 returns an error, which is logged, and the loop goes on; the write on 2
panics and ends the fan-out; connection 3 is never written. -/
theorem write_panic_aborts_fan_out :
    Snapshot (Join (Join (Join emptyRegistry "room1" 1) "room1" 2) "room1" 3) "room1"
      = [1, 2, 3] ∧
    serveBroadcast wire (Join (Join (Join emptyRegistry "room1" 1) "room1" 2) "room1" 3)
        (.ok ⟨"room1", "hi"⟩) ⟨[], [1], [2]⟩
      = (⟨200, "", some ("room1", "hi")⟩,
          some (fanOut wire (Join (Join (Join emptyRegistry "room1" 1) "room1" 2) "room1" 3)
            "room1" "hi" ⟨[], [1], [2]⟩)) ∧
    (fanOut wire (Join (Join (Join emptyRegistry "room1" 1) "room1" 2) "room1" 3)
      "room1" "hi" ⟨[], [1], [2]⟩).died = true ∧
    (fanOut wire (Join (Join (Join emptyRegistry "room1" 1) "room1" 2) "room1" 3)
      "room1" "hi" ⟨[], [1], [2]⟩).world.calls
      = [(1, TextMessage, "hi"), (2, TextMessage, "hi")] ∧
    (fanOut wire (Join (Join (Join emptyRegistry "room1" 1) "room1" 2) "room1" 3)
      "room1" "hi" ⟨[], [1], [2]⟩).logs
      = ["Error broadcasting message: use of closed network connection"] := by
  have hget : (Join (Join (Join emptyRegistry "room1" 1) "room1" 2) "room1" 3).get "room1"
      = [1, 2, 3] := by
    rw [get_Join_same, get_Join_same, get_Join_same]; rfl
  refine ⟨hget, serveBroadcast_well_formed _ _ _ _ _ (by decide) (by decide), ?_, ?_, ?_⟩
  · unfold fanOut
    rw [hget]
    rfl
  · unfold fanOut
    rw [hget]
    rfl
  · unfold fanOut
    rw [hget]
    rfl

/-! ## What the middleware does with a token -/

theorem JWTMiddleware_cases (L : JwtLib) (cfg : JWTConfig) (now : Int) (r : Request) :
    (∃ body, JWTMiddleware L cfg now r = ⟨some (401, body), []⟩) ∨
    ∃ t ch, r.token ≠ "" ∧ L.Parse r.token cfg.Secret now = .ok t ∧ t.Valid = true ∧
      t.Claims "channel" = some (.str ch) ∧
      JWTMiddleware L cfg now r = ⟨none, [r.ctx.WithValue ChannelKey (.str ch)]⟩ := by
  by_cases hne : r.token = ""
  · exact Or.inl ⟨"Missing token", by simp [JWTMiddleware, hne]⟩
  · cases hp : L.Parse r.token cfg.Secret now with
    | error err => exact Or.inl (JWTMiddleware_of_parse_error L cfg now r err hp)
    | ok t =>
      by_cases hv : t.Valid = true
      · cases hcl : t.Claims "channel" with
        | none =>
          exact Or.inl ⟨"Invalid token claims", by simp [JWTMiddleware, hne, hp, hv, hcl]⟩
        | some val =>
          cases val with
          | str ch =>
            exact Or.inr ⟨t, ch, hne, rfl, hv, hcl, by simp [JWTMiddleware, hne, hp, hv, hcl]⟩
          | num n =>
            exact Or.inl ⟨"Invalid token claims", by simp [JWTMiddleware, hne, hp, hv, hcl]⟩
          | other =>
            exact Or.inl ⟨"Invalid token claims", by simp [JWTMiddleware, hne, hp, hv, hcl]⟩
      · exact Or.inl ⟨"Invalid token", by simp [JWTMiddleware, hne, hp, hv]⟩

theorem JWTMiddleware_of_no_channel (L : JwtLib) (cfg : JWTConfig) (now : Int)
    (r : Request) (t : Token) (hp : L.Parse r.token cfg.Secret now = .ok t)
    (hc : ∀ s, t.Claims "channel" ≠ some (.str s)) :
    ∃ body, JWTMiddleware L cfg now r = ⟨some (401, body), []⟩ := by
  rcases JWTMiddleware_cases L cfg now r with h | ⟨t', ch, -, hp', -, hcl, -⟩
  · exact h
  · rw [hp] at hp'
    injection hp' with hp'
    subst hp'
    exact absurd hcl (hc ch)

theorem connectionClaims_exp (channel : String) (exp : Int) :
    connectionClaims channel exp "exp" = some (.num exp) := by
  simp [connectionClaims, ChannelKey]

theorem connectionClaims_channel (channel : String) (exp : Int) :
    connectionClaims channel exp "channel" = some (.str channel) := by
  simp [connectionClaims, ChannelKey]

theorem connectionClaims_nbf (channel : String) (exp : Int) :
    connectionClaims channel exp "nbf" = none := by
  simp [connectionClaims, ChannelKey]

theorem plainDecode_some (tok : String) (claims : MapClaims)
    (h : plainDecode tok = some claims) :
    ∃ c e, unaryDecode tok = some (c, e) ∧ claims = connectionClaims c e := by
  unfold plainDecode at h
  cases hd : unaryDecode tok with
  | none => rw [hd] at h; cases h
  | some ce =>
    rw [hd] at h
    injection h with h
    exact ⟨ce.1, ce.2, rfl, h.symm⟩

theorem plainJwt_checks : plainJwt.Checks plainDecode plainSigned := by
  refine ⟨?_, ?_, ?_, ?_, ?_, ?_⟩
  · intro tok key now h
    have hd : unaryDecode tok = none := by
      unfold plainDecode at h
      cases hd : unaryDecode tok with
      | none => rfl
      | some ce => rw [hd] at h; cases h
    exact ⟨"token is malformed", by simp [plainJwt, hd]⟩
  · intro tok key now h
    simp [plainSigned] at h
  · intro tok key now claims h hexp
    obtain ⟨c, e, hd, hc⟩ := plainDecode_some tok claims h
    obtain ⟨e', he', hne, -, -, hle⟩ := hexp
    rw [hc, connectionClaims_exp] at he'
    injection he' with he'
    injection he' with he'
    subst he'
    have h1 : ¬ now < e * Second := not_lt.mpr hle
    exact ⟨"token is expired", by simp [plainJwt, hd, hne, h1]⟩
  · intro tok key now claims h hnbf
    obtain ⟨c, e, hd, hc⟩ := plainDecode_some tok claims h
    obtain ⟨n, hn, -⟩ := hnbf
    rw [hc, connectionClaims_nbf] at hn
    cases hn
  · intro tok key now t h
    cases hd : unaryDecode tok with
    | none => simp [plainJwt, hd] at h
    | some ce =>
      obtain ⟨c, e⟩ := ce
      by_cases hok : e = 0 ∨ now < e * Second
      · have h' : (Except.ok ⟨connectionClaims c e, true⟩ : Except String Token) = .ok t := by
          simpa [plainJwt, hd, hok] using h
        injection h' with h'
        subst h'
        exact ⟨rfl, by simp [plainDecode, hd]⟩
      · simp [plainJwt, hd, hok] at h
  · intro tok key now claims h _ hexp _
    obtain ⟨c, e, hd, hc⟩ := plainDecode_some tok claims h
    subst hc
    have hok : e = 0 ∨ now < e * Second := by
      rcases hexp with h0 | h0 | ⟨e', he', -, -, hlt⟩
      · rw [connectionClaims_exp] at h0; cases h0
      · rw [connectionClaims_exp] at h0
        injection h0 with h0
        injection h0 with h0
        exact Or.inl h0
      · rw [connectionClaims_exp] at he'
        injection he' with he'
        injection he' with he'
        subst he'
        exact Or.inr hlt
    simp [plainJwt, hd, hok]

/-- C8, as amended: for a JWT package that checks tokens as `JwtLib.Checks` says, the
middleware has one of two outcomes.  It answers 401 and does not call the wrapped
handler, so that the route `/ws` leaves the registry as it is, whenever the token is
missing, malformed, has a signature that does not verify under `cfg.Secret`, has an
`exp` other than 0 that is not after `now`, has an `nbf` other than 0 that is after
`now`, or has a `channel` claim that is missing or not a string.  Whenever it does not
answer 401 it writes nothing itself and calls the wrapped handler once, with the request
context extended by the `channel` claim of the token, which `getChannel` reads back.
That is the outcome for every well-formed token that verifies, is neither expired (no
`exp`, `exp = 0`, or `exp` after `now`) nor not valid yet, and has a string `channel`
claim. -/
theorem jwt_middleware_outcomes (L : JwtLib) (decode : String → Option MapClaims)
    (signedBy : String → String → Bool) (hL : L.Checks decode signedBy)
    (cfg : JWTConfig) (now : Int) (r : Request) :
    (BadToken decode signedBy cfg now r.token →
      (∃ body, JWTMiddleware L cfg now r = ⟨some (401, body), []⟩) ∧
      ∀ upgrade cons, wsRoute L cfg now r upgrade cons = cons) ∧
    ((∃ body, JWTMiddleware L cfg now r = ⟨some (401, body), []⟩) ∨
      ∃ claims ch, r.token ≠ "" ∧ decode r.token = some claims ∧
        claims "channel" = some (.str ch) ∧
        JWTMiddleware L cfg now r = ⟨none, [r.ctx.WithValue ChannelKey (.str ch)]⟩ ∧
        getChannel (r.ctx.WithValue ChannelKey (.str ch)) = (ch, true)) ∧
    (∀ claims ch, r.token ≠ "" → decode r.token = some claims →
      signedBy r.token cfg.Secret = true → expLive claims now → nbfReached claims now →
      claims "channel" = some (.str ch) →
      JWTMiddleware L cfg now r = ⟨none, [r.ctx.WithValue ChannelKey (.str ch)]⟩) := by
  have key : BadToken decode signedBy cfg now r.token →
      ∃ body, JWTMiddleware L cfg now r = ⟨some (401, body), []⟩ := by
    rintro (h | h | h | ⟨claims, hd, h | h | h⟩)
    · exact ⟨"Missing token", by simp [JWTMiddleware, h]⟩
    · obtain ⟨err, he⟩ := hL.malformed r.token cfg.Secret now h
      exact JWTMiddleware_of_parse_error L cfg now r err he
    · obtain ⟨err, he⟩ := hL.signature r.token cfg.Secret now h
      exact JWTMiddleware_of_parse_error L cfg now r err he
    · obtain ⟨err, he⟩ := hL.expired r.token cfg.Secret now claims hd h
      exact JWTMiddleware_of_parse_error L cfg now r err he
    · obtain ⟨err, he⟩ := hL.notYet r.token cfg.Secret now claims hd h
      exact JWTMiddleware_of_parse_error L cfg now r err he
    · cases hp : L.Parse r.token cfg.Secret now with
      | error err => exact JWTMiddleware_of_parse_error L cfg now r err hp
      | ok t =>
        have hc := (hL.claims r.token cfg.Secret now t hp).2
        rw [hd] at hc
        injection hc with hc
        subst hc
        exact JWTMiddleware_of_no_channel L cfg now r t hp h
  refine ⟨?_, ?_, ?_⟩
  · intro hbad
    obtain ⟨body, hb⟩ := key hbad
    refine ⟨⟨body, hb⟩, ?_⟩
    intro upgrade cons
    simp [wsRoute, hb]
  · rcases JWTMiddleware_cases L cfg now r with h | ⟨t, ch, hne, hp, -, hcl, hmw⟩
    · exact Or.inl h
    · exact Or.inr ⟨t.Claims, ch, hne, (hL.claims r.token cfg.Secret now t hp).2, hcl, hmw,
        getChannel_WithValue r.ctx ch⟩
  · intro claims ch hne hd hs hexp hnbf hcl
    exact JWTMiddleware_of_parse_ok L cfg now r claims ch hne
      (hL.accept r.token cfg.Secret now claims hd hs hexp hnbf) hcl

/-- Witness of `jwt_middleware_outcomes`, with the instance `plainJwt`: the request
without a token is answered 401 and the registry stays as it is; the token `+a.room1`
(expiry second 1) presented at time 0 is passed on once with channel `"room1"`. -/
theorem jwt_middleware_outcomes_witness :
    ((∃ body, JWTMiddleware plainJwt ⟨600, "secret"⟩ 0 ⟨"", []⟩ = ⟨some (401, body), []⟩) ∧
      ∀ upgrade cons, wsRoute plainJwt ⟨600, "secret"⟩ 0 ⟨"", []⟩ upgrade cons = cons) ∧
    JWTMiddleware plainJwt ⟨600, "secret"⟩ 0 ⟨"+a.room1", []⟩
      = ⟨none, [Context.WithValue [] ChannelKey (.str "room1")]⟩ := by
  refine ⟨(jwt_middleware_outcomes plainJwt plainDecode plainSigned plainJwt_checks
    ⟨600, "secret"⟩ 0 ⟨"", []⟩).1 (Or.inl rfl), ?_⟩
  have hd : plainDecode "+a.room1" = some (connectionClaims "room1" 1) := by
    have : "+a.room1" = unaryEncode "room1" 1 := by decide
    rw [this]
    simp [plainDecode, unaryDecode_unaryEncode]
  exact (jwt_middleware_outcomes plainJwt plainDecode plainSigned plainJwt_checks
    ⟨600, "secret"⟩ 0 ⟨"+a.room1", []⟩).2.2 (connectionClaims "room1" 1) "room1"
    (by decide) hd rfl
    (Or.inr (Or.inr ⟨1, connectionClaims_exp "room1" 1, by decide, by decide, by decide⟩))
    (Or.inl (connectionClaims_nbf "room1" 1)) (connectionClaims_channel "room1" 1)

/-- C8 as stated fails for a token whose expiry is the epoch: a token with claims
`channel = "room1"` and `exp = 0`, presented on 2025-11-04 (1762214400 s after the
epoch), has an expiry in the past, yet golang-jwt reads `exp = 0` as no expiry, so
the middleware does not answer 401 and calls the wrapped handler with channel
`"room1"`.  This holds for every package that meets `JwtLib.Checks` and every token
that decodes to these claims and verifies; `plainJwt` with the token `+.room1` is
one. -/
theorem zero_exp_token_accepted :
    plainJwt.Checks plainDecode plainSigned ∧
    plainDecode "+.room1" = some (connectionClaims "room1" 0) ∧
    connectionClaims "room1" 0 "exp" = some (.num 0) ∧
    (0 : Int) * Second < 1762214400 * Second ∧
    JWTMiddleware plainJwt ⟨600, "secret"⟩ (1762214400 * Second) ⟨"+.room1", []⟩
      = ⟨none, [Context.WithValue [] ChannelKey (.str "room1")]⟩ ∧
    ∀ (L : JwtLib) (decode : String → Option MapClaims) (signedBy : String → String → Bool),
      L.Checks decode signedBy → ∀ tok, tok ≠ "" →
      decode tok = some (connectionClaims "room1" 0) → signedBy tok "secret" = true →
      JWTMiddleware L ⟨600, "secret"⟩ (1762214400 * Second) ⟨tok, []⟩
        = ⟨none, [Context.WithValue [] ChannelKey (.str "room1")]⟩ := by
  have hgen : ∀ (L : JwtLib) (decode : String → Option MapClaims)
      (signedBy : String → String → Bool),
      L.Checks decode signedBy → ∀ tok, tok ≠ "" →
      decode tok = some (connectionClaims "room1" 0) → signedBy tok "secret" = true →
      JWTMiddleware L ⟨600, "secret"⟩ (1762214400 * Second) ⟨tok, []⟩
        = ⟨none, [Context.WithValue [] ChannelKey (.str "room1")]⟩ := by
    intro L decode signedBy hL tok hne hd hs
    have hp := hL.accept tok "secret" (1762214400 * Second) (connectionClaims "room1" 0) hd hs
      (Or.inr (Or.inl (connectionClaims_exp "room1" 0)))
      (Or.inl (connectionClaims_nbf "room1" 0))
    exact JWTMiddleware_of_parse_ok L ⟨600, "secret"⟩ (1762214400 * Second) ⟨tok, []⟩
      (connectionClaims "room1" 0) "room1" hne hp (connectionClaims_channel "room1" 0)
  have hd : plainDecode "+.room1" = some (connectionClaims "room1" 0) := by
    have : "+.room1" = unaryEncode "room1" 0 := by decide
    rw [this]
    simp [plainDecode, unaryDecode_unaryEncode]
  exact ⟨plainJwt_checks, hd, connectionClaims_exp "room1" 0, by decide,
    hgen plainJwt plainDecode plainSigned plainJwt_checks "+.room1" (by decide) hd rfl, hgen⟩

end WsHub
